import Mathlib

/-
Verification of the quantum compilation pipeline of synapse-framework/synapse
(rust-compiler/src/quantum.rs) against its specification.

Shallow embedding conventions:
- `PathBuf` is embedded as `String` (`Fpath`).
- The file system is an explicit parameter `FS`: `read` models
  `std::fs::read_to_string` (`none` = IO error), `errMsg` gives the message of
  the IO error produced when reading that path fails, `size` models
  `std::fs::metadata(..).len()` with `unwrap_or(0)` applied, and `ext` models
  `Path::extension()` with `unwrap_or("")` applied.
- `Duration` values are `Nat` nanoseconds; `f64` arithmetic is embedded as `ℚ`
  (all concrete values used in theorems below are exactly representable in f64,
  so the divergence between ℚ and f64 does not affect any stated result).
- Measured wall-clock durations are nondeterministic inputs: `time : Fpath → Nat`
  gives the elapsed time of each Phase 3 compile attempt and
  `ctime : Nat → Fpath → Nat` the elapsed time of a Phase 4 correction of a path
  in a given round. Theorems quantify over all timings.
- `HashMap<PathBuf, CompilationResult>` is embedded as an association list
  `List (Fpath × CompilationResult)`; hash-map iteration order is unspecified in
  the source, this embedding fixes the input order, and every stated property is
  order-insensitive (key membership / key multiset).
- Rust panics are modelled as `Option.none` on the function in which the panic
  occurs (`Duration / 0` in `calculate_quantum_efficiency`).
-/

namespace Synapse

/-- File paths (`PathBuf`). -/
abbrev Fpath := String

/-- The ambient file system, an explicit parameter of the embedding (the Rust
code reaches it through `std::fs`). -/
structure FS where
  read : Fpath → Option String
  errMsg : Fpath → String
  size : Fpath → Nat
  ext : Fpath → String

/-- Embeds `QuantumConfig` (quantum.rs lines 15-27). `u8` fields widen to `Nat`;
no claim depends on 8-bit overflow. -/
structure QuantumConfig where
  max_parallel_threads : Nat
  enable_entanglement : Bool
  error_correction_level : Nat
  enable_superposition : Bool
  cache_coherence_level : Nat
deriving DecidableEq

/-- Embeds `CompilationResult` (quantum.rs lines 65-74). `compilation_time` is
in nanoseconds, `quantum_efficiency` is the ℚ embedding of the f64 score. -/
structure CompilationResult where
  success : Bool
  output : String
  source_map : Option String
  errors : List String
  warnings : List String
  compilation_time : Nat
  quantum_efficiency : ℚ
deriving DecidableEq

/-- Embeds `CompilationState` (quantum.rs lines 53-63). -/
inductive CompilationState where
  | Superposition
  | Entangled
  | Collapsed (r : CompilationResult)
  | Decohered (errs : List String)
deriving DecidableEq

/-- Embeds `QuantumState` (quantum.rs lines 42-51). `last_modified : Instant`
is dropped: it is written once with the current clock and never read. -/
structure QuantumState where
  file_path : Fpath
  compilation_state : CompilationState
  dependencies : List Fpath
  entangled_files : List Fpath
  superposition_level : ℚ
  coherence_time : Nat
deriving DecidableEq

/-- The per-extension complexity factor of `calculate_superposition_level`
(quantum.rs lines 330-336). 1.2 and 0.8 are embedded as 6/5 and 4/5. -/
def extensionComplexityFactor (e : String) : ℚ :=
  if e = "ts" then 1
  else if e = "tsx" then 6 / 5
  else if e = "js" then 4 / 5
  else if e = "jsx" then 1
  else 1 / 2

/-- Embeds `calculate_superposition_level` (quantum.rs lines 319-340):
`(file_size / 10000.0 * complexity_factor).min(1.0)`. -/
def calculate_superposition_level (fs : FS) (file_path : Fpath) : ℚ :=
  min ((fs.size file_path : ℚ) / 10000 * extensionComplexityFactor (fs.ext file_path)) 1

/-- One unit of Phase 1: the `QuantumState` built for one path by
`initialize_quantum_superposition` (quantum.rs lines 142-158). -/
def initState (fs : FS) (cfg : QuantumConfig) (file_path : Fpath) : QuantumState :=
  { file_path := file_path
    compilation_state := CompilationState.Superposition
    dependencies := []
    entangled_files := []
    superposition_level :=
      if cfg.enable_superposition then calculate_superposition_level fs file_path else 1
    coherence_time := 1000000000 }

/-- Embeds `initialize_quantum_superposition` (quantum.rs lines 134-164): the
parallel map is order-preserving (`into_par_iter().map().collect()` on a Vec). -/
def initialize_quantum_superposition (fs : FS) (cfg : QuantumConfig)
    (file_paths : List Fpath) : List QuantumState :=
  file_paths.map (initState fs cfg)

/-
String primitives of the embedding. Lean's own `String.trim`, `String.splitOn`
and `String.replace` are defined by well-founded recursion on byte positions
and do not reduce in the kernel, so the Rust string operations are embedded as
structural functions on character lists instead; `String.toList`/`String.mk`
mediate. Semantics follow the Rust std functions used by quantum.rs.
-/

/-- ASCII whitespace for `str::trim` (the files in all claims are ASCII; the
extra Unicode whitespace classes of Rust's `char::is_whitespace` never occur
in any statement below). -/
def isWhite (c : Char) : Bool :=
  c = ' ' || c = '\t' || c = '\n' || c = '\r'

/-- Embeds `str::trim`: drop whitespace from both ends. -/
def trimChars (cs : List Char) : List Char :=
  ((cs.dropWhile isWhite).reverse.dropWhile isWhite).reverse

/-- Embeds `str::lines` as a split on the newline character. (Rust `lines()`
also strips a trailing `\r` per line and drops one trailing empty segment;
both differences are invisible to the line filter and the quote extraction
that consume the result.) -/
def splitOnNewline : List Char → List (List Char)
  | [] => [[]]
  | c :: cs =>
    if c = '\n' then [] :: splitOnNewline cs
    else
      match splitOnNewline cs with
      | [] => [[c]]
      | l :: ls => (c :: l) :: ls

/-- Helper for `extract_import_path`: splits a character list at the first
double-quote character, returning the parts strictly before and after it
(mirrors `line.find('"')`). -/
def splitAtQuote : List Char → Option (List Char × List Char)
  | [] => none
  | c :: cs =>
    if c = '"' then some ([], cs)
    else (splitAtQuote cs).map (fun pr => (c :: pr.1, pr.2))

/-- Embeds `extract_import_path` (quantum.rs lines 362-371): the token between
the first two double quotes of the line, if both exist. -/
def extract_import_path (line : List Char) : Option Fpath :=
  match splitAtQuote line with
  | none => none
  | some pr =>
    match splitAtQuote pr.2 with
    | none => none
    | some pr2 => some (String.mk pr2.1)

/-- The line filter of `resolve_dependencies` (quantum.rs line 350):
`line.trim().starts_with("import") || line.trim().starts_with("from")`. -/
def isImportLine (line : List Char) : Bool :=
  List.isPrefixOf "import".toList (trimChars line) ||
    List.isPrefixOf "from".toList (trimChars line)

/-- Embeds `resolve_dependencies` (quantum.rs lines 343-359). Note that the
`?` on `read_to_string` PROPAGATES the read error to the caller (the soft-fail
happens only at the Phase 2 call site, which drops the `Err` case). -/
def resolve_dependencies (fs : FS) (file_path : Fpath) : Except String (List Fpath) :=
  match fs.read file_path with
  | none => Except.error (fs.errMsg file_path)
  | some content =>
    Except.ok ((splitOnNewline content.toList).filterMap
      (fun line => if isImportLine line then extract_import_path line else none))

/-- One unit of Phase 2: the body of the `par_iter_mut().for_each` closure of
`entangle_dependencies` (quantum.rs lines 181-196) applied to one state, where
`batchPaths` is the key set of `state_map`. If the state's own file is
unreadable the whole `if let Ok` block is skipped and the state is unchanged. -/
def entangleOne (fs : FS) (batchPaths : List Fpath) (state : QuantumState) : QuantumState :=
  match resolve_dependencies fs state.file_path with
  | Except.error _ => state
  | Except.ok deps =>
    { state with
      dependencies := deps
      entangled_files := state.entangled_files ++
        batchPaths.filter (fun other_path =>
          other_path != state.file_path &&
            (match resolve_dependencies fs other_path with
             | Except.ok other_deps => other_deps.contains state.file_path
             | Except.error _ => false)) }

/-- Embeds `entangle_dependencies` (quantum.rs lines 167-200). `state_map` is a
`HashMap`, so its key set is the deduplicated path list; iteration order over
it is unspecified and this embedding fixes batch order (all claims below are
membership-only on `entangled_files`). -/
def entangle_dependencies (fs : FS) (quantum_states : List QuantumState) :
    List QuantumState :=
  let state_map_keys : List Fpath := (quantum_states.map QuantumState.file_path).dedup
  quantum_states.map (entangleOne fs state_map_keys)

/-- Decimal rendering of the f64 percentage written into the compiled banner
(Rust formats with two decimals); abstracted as an exact rational rendering —
no claim inspects this text. -/
def fmtPercent (q : ℚ) : String := toString q.num ++ "/" ++ toString q.den

/-- Embeds `quantum_compile_file` (quantum.rs lines 374-390): fails exactly
when the file cannot be read, otherwise returns the banner-prefixed content.
The 10ms sleep is timing, covered by the `time` parameter of Phase 3. -/
def quantum_compile_file (fs : FS) (file_path : Fpath) : Except String String :=
  match fs.read file_path with
  | none => Except.error (fs.errMsg file_path)
  | some content =>
    Except.ok ("// Quantum compiled from: " ++ file_path ++ "\n// Quantum efficiency: "
      ++ fmtPercent (calculate_superposition_level fs file_path * 100) ++ "%\n" ++ content)

/-- Embeds `calculate_file_efficiency` (quantum.rs lines 393-402):
`expected_time / compilation_time` (50ms expected, ratio 1.0 when the measured
time is zero), multiplied by the state's `superposition_level` — note: NOT
capped at 1.0. -/
def calculate_file_efficiency (state : QuantumState) (compilation_time : Nat) : ℚ :=
  let expected_time : Nat := 50000000
  let efficiency : ℚ :=
    if 0 < compilation_time then (expected_time : ℚ) / (compilation_time : ℚ) else 1
  efficiency * state.superposition_level

/-- One unit of Phase 3: the `CompilationResult` built for one state by the
closure of `quantum_measurement` (quantum.rs lines 211-235), with `time` the
measured elapsed duration of the compile attempt. -/
def measureOne (fs : FS) (time : Fpath → Nat) (state : QuantumState) : CompilationResult :=
  let result := quantum_compile_file fs state.file_path
  let compilation_time := time state.file_path
  let quantum_efficiency := calculate_file_efficiency state compilation_time
  { success := match result with | Except.ok _ => true | Except.error _ => false
    output := match result with | Except.ok s => s | Except.error _ => ""
    source_map := none
    errors := match result with | Except.ok _ => [] | Except.error e => [e]
    warnings := []
    compilation_time := compilation_time
    quantum_efficiency := quantum_efficiency }

/-- Embeds `quantum_measurement` (quantum.rs lines 203-240): one
`(path, result)` entry per state, collected into the results map. The function
body returns `Ok(results)` unconditionally: per-file failures are data. -/
def quantum_measurement (fs : FS) (time : Fpath → Nat) (quantum_states : List QuantumState) :
    List (Fpath × CompilationResult) :=
  quantum_states.map (fun state => (state.file_path, measureOne fs time state))

/-- Events relevant to the Concurrency Limiter, for stating what Phase 3
actually does with `compilation_semaphore`. -/
inductive ExecEvent where
  | acquireSlot
  | releaseSlot
  | compileAttempt (file_path : Fpath)
deriving DecidableEq

/-- The trace of limiter-relevant calls performed by the body of
`quantum_measurement` (quantum.rs lines 209-236): the closure invokes
`quantum_compile_file` once per state and contains no semaphore operation —
`compilation_semaphore` is created in `QuantumCompiler::new` (line 88) and
never mentioned again anywhere in quantum.rs. -/
def quantum_measurement_trace (quantum_states : List QuantumState) : List ExecEvent :=
  quantum_states.map (fun state => ExecEvent.compileAttempt state.file_path)

/-- Embeds `str::replace pat -> repl` (leftmost-first, non-overlapping) as
fuel-indexed structural recursion on the character list; a fuel of the list's
length always suffices, since every step consumes at least one character
(`replaceChars` with an empty pattern returns the input unchanged — Rust's
empty-pattern behavior differs but no caller passes an empty pattern). -/
def replaceChars (pat repl : List Char) : Nat → List Char → List Char
  | _, [] => []
  | 0, cs => cs
  | fuel + 1, c :: rest =>
    if !pat.isEmpty && List.isPrefixOf pat (c :: rest) then
      repl ++ replaceChars pat repl fuel (rest.drop (pat.length - 1))
    else c :: replaceChars pat repl fuel rest

/-- `str::replace` on strings, via `replaceChars`. -/
def strReplace (s pat repl : String) : String :=
  String.mk (replaceChars pat.toList repl.toList s.toList.length s.toList)

/-- Embeds `apply_error_corrections` (quantum.rs lines 428-437): the keyword
swap followed by the unconditional header prefix. -/
def apply_error_corrections (content : String) : String :=
  let c1 := strReplace content "const " "let "
  let c2 := strReplace c1 "let " "const "
  "// Quantum Error Corrected\n" ++ c2

/-- Embeds `correct_compilation_errors` (quantum.rs lines 405-425): reads the
file with `unwrap_or_default`, rewrites it, and succeeds iff the rewritten
content is non-empty (`String::is_empty`, tested here on the character list).
`ct` is the measured elapsed duration of this correction. -/
def correct_compilation_errors (fs : FS) (ct : Fpath → Nat) (file_path : Fpath) :
    CompilationResult :=
  let content := (fs.read file_path).getD ""
  let corrected_content := apply_error_corrections content
  let success := !corrected_content.toList.isEmpty
  { success := success
    output := corrected_content
    source_map := none
    errors := if success then [] else ["Quantum error correction failed"]
    warnings := []
    compilation_time := ct file_path
    quantum_efficiency := 4 / 5 }

/-- `HashMap::insert` on the association-list embedding of the results map:
replaces the value at an existing key, otherwise appends. -/
def insertResult (results : List (Fpath × CompilationResult)) (path : Fpath)
    (correction : CompilationResult) : List (Fpath × CompilationResult) :=
  if (results.map Prod.fst).contains path then
    results.map (fun pr => if pr.1 = path then (path, correction) else pr)
  else results ++ [(path, correction)]

/-- The `failed_files` selection of a correction round (quantum.rs lines
254-258): paths of the entries whose result is not successful. -/
def failedFiles (results : List (Fpath × CompilationResult)) : List Fpath :=
  (results.filter (fun pr => !pr.2.success)).map Prod.fst

/-- One round of Phase 4 (quantum.rs lines 264-279): correct every currently
failed file and insert the corrections back into the results map. -/
def correctionRound (fs : FS) (ct : Fpath → Nat)
    (results : List (Fpath × CompilationResult)) : List (Fpath × CompilationResult) :=
  (failedFiles results).foldl
    (fun acc path => insertResult acc path (correct_compilation_errors fs ct path)) results

/-- The `while correction_rounds < max_corrections` loop of
`quantum_error_correction` (quantum.rs lines 253-282), with remaining fuel as
first argument. Besides the results map it carries two ghost observations the
Rust function computes but does not return: the final value of the local
`correction_rounds` counter, and the per-path count of correction attempts
(the spec's `retry_count`; the code stores no such field, so it is tracked
here as instrumentation). -/
def qecGo (fs : FS) (ctime : Nat → Fpath → Nat) :
    Nat → Nat → List (Fpath × CompilationResult) → (Fpath → Nat) →
    List (Fpath × CompilationResult) × Nat × (Fpath → Nat)
  | 0, correction_rounds, results, retry => (results, correction_rounds, retry)
  | remaining + 1, correction_rounds, results, retry =>
    let failed := failedFiles results
    if failed.isEmpty then (results, correction_rounds, retry)
    else
      qecGo fs ctime remaining (correction_rounds + 1)
        (correctionRound fs (ctime correction_rounds) results)
        (fun p => if p ∈ failed then retry p + 1 else retry p)

/-- Embeds `quantum_error_correction` (quantum.rs lines 243-289):
`max_corrections = error_correction_level * 2`, starting from round 0 and zero
retries everywhere. -/
def quantum_error_correction (fs : FS) (ctime : Nat → Fpath → Nat)
    (error_correction_level : Nat) (results : List (Fpath × CompilationResult)) :
    List (Fpath × CompilationResult) × Nat × (Fpath → Nat) :=
  qecGo fs ctime (error_correction_level * 2) 0 results (fun _ => 0)

/-- Embeds `calculate_quantum_efficiency` (quantum.rs lines 292-316). The
average `sum::<Duration>() / total_files as u32` PANICS when `total_files = 0`
(Duration division by zero); the panic is modelled as `none`. Duration
division truncates at nanosecond granularity, hence Nat division. -/
def calculate_quantum_efficiency (results : List (Fpath × CompilationResult))
    (total_time : Nat) : Option ℚ :=
  let total_files := results.length
  if total_files = 0 then none
  else
    let successful_files := (results.filter (fun pr => pr.2.success)).length
    let avg_compilation_time : Nat :=
      ((results.map (fun pr => pr.2.compilation_time)).sum) / total_files
    let theoretical_sequential_time := avg_compilation_time * total_files
    let parallel_efficiency : ℚ :=
      if 0 < total_time then (theoretical_sequential_time : ℚ) / (total_time : ℚ) else 0
    let success_rate : ℚ := (successful_files : ℚ) / (total_files : ℚ)
    some (min (parallel_efficiency * success_rate * (9 / 10)) 1)

/-- Phases 1 and 2 of `compile_quantum_parallel` (quantum.rs lines 107-115):
initialization followed by entanglement when enabled. -/
def batchStates (fs : FS) (cfg : QuantumConfig) (file_paths : List Fpath) :
    List QuantumState :=
  let quantum_states := initialize_quantum_superposition fs cfg file_paths
  if cfg.enable_entanglement then entangle_dependencies fs quantum_states else quantum_states

/-- Embeds `compile_quantum_parallel` (quantum.rs lines 96-131). The phases
all return `Ok`, so the only non-`Ok` outcome is the divide-by-zero panic
inside `calculate_quantum_efficiency`, modelled as `none`. `total_time` is the
measured wall time of the whole batch. -/
def compile_quantum_parallel (fs : FS) (cfg : QuantumConfig) (time : Fpath → Nat)
    (ctime : Nat → Fpath → Nat) (total_time : Nat) (file_paths : List Fpath) :
    Option (List (Fpath × CompilationResult)) :=
  let collapsed_states := quantum_measurement fs time (batchStates fs cfg file_paths)
  let corrected_states :=
    (quantum_error_correction fs ctime cfg.error_correction_level collapsed_states).1
  match calculate_quantum_efficiency corrected_states total_time with
  | none => none
  | some _ => some corrected_states

/-- The unit of a given path among a list of states (`quantum_states` is
keyed by `file_path`). -/
def findUnit (states : List QuantumState) (path : Fpath) : Option QuantumState :=
  states.find? (fun s => s.file_path == path)

/-- Modelled from the spec (section 4.6), for refinement comparison with
`calculate_file_efficiency`: "efficiency_score = expected_time / actual_time
(capped at 1.0, multiplied by the unit's complexity_weight)". -/
def spec_efficiency_score (expected_time actual_time : Nat)
    (complexity_weight : ℚ) : ℚ :=
  min ((expected_time : ℚ) / (actual_time : ℚ)) 1 * complexity_weight

/-
Concrete fixtures used by counterexamples and witnesses.
-/

/-- A configuration with entanglement on, correction level 2 (so 4 correction
rounds), and superposition off (every unit then has complexity weight 1). -/
def exCfg : QuantumConfig :=
  { max_parallel_threads := 4
    enable_entanglement := true
    error_correction_level := 2
    enable_superposition := false
    cache_coherence_level := 3 }

/-- `exCfg` with `max_parallel_threads = 0`. -/
def cfgZero : QuantumConfig :=
  { max_parallel_threads := 0
    enable_entanglement := true
    error_correction_level := 2
    enable_superposition := false
    cache_coherence_level := 3 }

/-- A file system on which every file is readable and contains no imports. -/
def exFS0 : FS :=
  { read := fun _ => some "const x = 1;"
    errMsg := fun p => "read error: " ++ p
    size := fun _ => 13
    ext := fun _ => "ts" }

/-- A file system on which only `b.ts` is readable, and `b.ts` imports
`a.ts`. -/
def exFS2 : FS :=
  { read := fun p => if p = "b.ts" then some "import \"a.ts\"" else none
    errMsg := fun p => "No such file: " ++ p
    size := fun _ => 0
    ext := fun _ => "ts" }

/-- A file system on which no file is readable: every compile attempt fails. -/
def exFS4 : FS :=
  { read := fun _ => none
    errMsg := fun p => "os error 2: " ++ p
    size := fun _ => 0
    ext := fun _ => "ts" }

/-- A file system on which every file is readable and `b.ts` imports `a.ts`. -/
def exFSW : FS :=
  { read := fun p => if p = "b.ts" then some "import \"a.ts\"" else some "let x = 1;"
    errMsg := fun p => "err: " ++ p
    size := fun _ => 0
    ext := fun _ => "ts" }

/-- Phase 2 output for the batch `[a.ts, b.ts]` on `exFS2` (a.ts unreadable,
b.ts imports a.ts). -/
def entX : List QuantumState :=
  entangle_dependencies exFS2 (initialize_quantum_superposition exFS2 exCfg ["a.ts", "b.ts"])

/-- The Phase 2 unit of the unreadable `a.ts` on `exFS2`. -/
def unitAX : QuantumState := entangleOne exFS2 ["a.ts", "b.ts"] (initState exFS2 exCfg "a.ts")

/-- The Phase 2 unit of `a.ts` on the all-readable `exFSW`. -/
def unitAW : QuantumState := entangleOne exFSW ["a.ts", "b.ts"] (initState exFSW exCfg "a.ts")

/-- The Phase 2 unit of `b.ts` on the all-readable `exFSW`. -/
def unitBW : QuantumState := entangleOne exFSW ["a.ts", "b.ts"] (initState exFSW exCfg "b.ts")

/-- Phase 4 output (with ghost round and retry counters) for a one-file batch
on the all-unreadable `exFS4`, at correction level 2: Phase 3 fails the file,
Phase 4 then runs. -/
def qecX : List (Fpath × CompilationResult) × Nat × (Fpath → Nat) :=
  quantum_error_correction exFS4 (fun _ _ => 7) 2
    (quantum_measurement exFS4 (fun _ => 5) (initialize_quantum_superposition exFS4 exCfg ["a.ts"]))

/-- An explicit one-entry results map whose only entry is failing. -/
def resW : List (Fpath × CompilationResult) :=
  [("a.ts",
    { success := false, output := "", source_map := none, errors := ["boom"],
      warnings := [], compilation_time := 5, quantum_efficiency := 0 })]

/-- The limiter/compile event trace of Phase 3 on a one-file batch. -/
def traceX : List ExecEvent :=
  quantum_measurement_trace (initialize_quantum_superposition exFS0 exCfg ["a.ts"])

/-- Phase 3 output on `exFS0` for the one-file batch `[a.ts]` with a measured
compile time of 25ms (25000000 ns) — half the expected 50ms. -/
def measX : List (Fpath × CompilationResult) :=
  quantum_measurement exFS0 (fun _ => 25000000) (initialize_quantum_superposition exFS0 exCfg ["a.ts"])

/-- A concrete Phase 3 timing: every compile attempt measures 25ms. -/
def timeW : Fpath → Nat := fun _ => 25000000

/-- A concrete Phase 4 timing: every correction attempt measures 7 ns. -/
def ctW : Nat → Fpath → Nat := fun _ _ => 7

/-- The Phase 1 unit of `a.ts` on `exFS0` under `exCfg`. -/
def sW : QuantumState := initState exFS0 exCfg "a.ts"

/-
Helper lemmas.
-/

theorem entangleOne_file_path (fs : FS) (ks : List Fpath) (s : QuantumState) :
    (entangleOne fs ks s).file_path = s.file_path := by
  unfold entangleOne
  cases resolve_dependencies fs s.file_path <;> rfl

theorem entangle_dependencies_file_paths (fs : FS) (states : List QuantumState) :
    (entangle_dependencies fs states).map QuantumState.file_path =
      states.map QuantumState.file_path := by
  unfold entangle_dependencies
  rw [List.map_map]
  exact List.map_congr_left fun s _ => entangleOne_file_path fs _ s

theorem initialize_file_paths (fs : FS) (cfg : QuantumConfig) (paths : List Fpath) :
    (initialize_quantum_superposition fs cfg paths).map QuantumState.file_path = paths := by
  unfold initialize_quantum_superposition
  rw [List.map_map]
  have h : (QuantumState.file_path ∘ initState fs cfg) = id := funext fun p => rfl
  rw [h, List.map_id]

theorem batchStates_file_paths (fs : FS) (cfg : QuantumConfig) (paths : List Fpath) :
    (batchStates fs cfg paths).map QuantumState.file_path = paths := by
  unfold batchStates
  by_cases h : cfg.enable_entanglement
  · rw [if_pos h, entangle_dependencies_file_paths, initialize_file_paths]
  · rw [if_neg h, initialize_file_paths]

theorem quantum_measurement_keys (fs : FS) (time : Fpath → Nat)
    (states : List QuantumState) :
    (quantum_measurement fs time states).map Prod.fst =
      states.map QuantumState.file_path := by
  simp [quantum_measurement]

theorem insertResult_keys (results : List (Fpath × CompilationResult)) (path : Fpath)
    (r : CompilationResult) (h : path ∈ results.map Prod.fst) :
    (insertResult results path r).map Prod.fst = results.map Prod.fst := by
  unfold insertResult
  rw [if_pos (List.elem_iff.mpr h)]
  rw [List.map_map]
  refine List.map_congr_left fun pr _ => ?_
  by_cases he : pr.1 = path
  · simp [he]
  · simp [he]

theorem failedFiles_subset (results : List (Fpath × CompilationResult)) :
    ∀ p ∈ failedFiles results, p ∈ results.map Prod.fst := by
  intro p hp
  unfold failedFiles at hp
  obtain ⟨pr, hpr, rfl⟩ := List.mem_map.mp hp
  exact List.mem_map_of_mem _ (List.mem_of_mem_filter hpr)

theorem foldl_insert_keys (fs : FS) (ct : Fpath → Nat) (ps : List Fpath) :
    ∀ acc : List (Fpath × CompilationResult), (∀ p ∈ ps, p ∈ acc.map Prod.fst) →
      ((ps.foldl (fun a p => insertResult a p (correct_compilation_errors fs ct p)) acc).map
          Prod.fst) = acc.map Prod.fst := by
  induction ps with
  | nil => intro acc _; rfl
  | cons p ps ih =>
    intro acc h
    rw [List.foldl_cons]
    have hins := insertResult_keys acc p (correct_compilation_errors fs ct p)
      (h p (List.mem_cons_self p ps))
    rw [ih _ fun q hq => hins ▸ h q (List.mem_cons_of_mem p hq), hins]

theorem correctionRound_keys (fs : FS) (ct : Fpath → Nat)
    (results : List (Fpath × CompilationResult)) :
    (correctionRound fs ct results).map Prod.fst = results.map Prod.fst := by
  unfold correctionRound
  exact foldl_insert_keys fs ct _ results (failedFiles_subset results)

theorem qecGo_keys (fs : FS) (ctime : Nat → Fpath → Nat) :
    ∀ (fuel rounds : Nat) (results : List (Fpath × CompilationResult)) (retry : Fpath → Nat),
      ((qecGo fs ctime fuel rounds results retry).1).map Prod.fst = results.map Prod.fst := by
  intro fuel
  induction fuel with
  | zero => intro _ _ _; rfl
  | succ n ih =>
    intro rounds results retry
    simp only [qecGo]
    by_cases h : (failedFiles results).isEmpty
    · rw [if_pos h]
    · rw [if_neg h, ih, correctionRound_keys]

theorem quantum_error_correction_keys (fs : FS) (ctime : Nat → Fpath → Nat)
    (level : Nat) (results : List (Fpath × CompilationResult)) :
    ((quantum_error_correction fs ctime level results).1).map Prod.fst =
      results.map Prod.fst :=
  qecGo_keys fs ctime (level * 2) 0 results (fun _ => 0)

theorem toList_append (a b : String) : (a ++ b).toList = a.toList ++ b.toList := by
  cases a
  cases b
  rfl

theorem apply_error_corrections_not_empty (content : String) :
    (apply_error_corrections content).toList.isEmpty = false := by
  unfold apply_error_corrections
  rw [toList_append]
  rfl

theorem correct_compilation_errors_success (fs : FS) (ct : Fpath → Nat) (p : Fpath) :
    (correct_compilation_errors fs ct p).success = true := by
  unfold correct_compilation_errors
  simp only [apply_error_corrections_not_empty, Bool.not_false]

theorem foldl_insert_all_success (fs : FS) (ct : Fpath → Nat) (ps : List Fpath) :
    ∀ acc : List (Fpath × CompilationResult),
      (∀ pr ∈ acc, pr.2.success = true ∨ pr.1 ∈ ps) →
      ∀ pr ∈ ps.foldl
          (fun a p => insertResult a p (correct_compilation_errors fs ct p)) acc,
        pr.2.success = true := by
  induction ps with
  | nil =>
    intro acc h pr hpr
    rcases h pr hpr with hs | hmem
    · exact hs
    · cases hmem
  | cons p ps ih =>
    intro acc h pr hpr
    rw [List.foldl_cons] at hpr
    refine ih _ ?_ pr hpr
    intro q hq
    unfold insertResult at hq
    by_cases hc : List.contains (acc.map Prod.fst) p
    · rw [if_pos hc] at hq
      obtain ⟨q0, hq0, rfl⟩ := List.mem_map.mp hq
      by_cases he : q0.1 = p
      · left
        simp only [if_pos he]
        exact correct_compilation_errors_success fs ct p
      · simp only [if_neg he]
        rcases h q0 hq0 with hs | hmem
        · exact Or.inl hs
        · rcases List.mem_cons.mp hmem with h1 | h2
          · exact absurd h1 he
          · exact Or.inr h2
    · rw [if_neg hc] at hq
      rcases List.mem_append.mp hq with h1 | h2
      · rcases h q h1 with hs | hmem
        · exact Or.inl hs
        · rcases List.mem_cons.mp hmem with h1eq | h2mem
          · exact absurd (List.elem_iff.mpr (h1eq ▸ List.mem_map_of_mem Prod.fst h1)) hc
          · exact Or.inr h2mem
      · rcases List.mem_singleton.mp h2 with rfl
        exact Or.inl (correct_compilation_errors_success fs ct p)

theorem failedFiles_of_all_fail (results : List (Fpath × CompilationResult))
    (h : ∀ pr ∈ results, pr.2.success = false) :
    failedFiles results = results.map Prod.fst := by
  unfold failedFiles
  congr 1
  refine List.filter_eq_self.mpr fun pr hpr => ?_
  simp [h pr hpr]

theorem failedFiles_of_all_success (results : List (Fpath × CompilationResult))
    (h : ∀ pr ∈ results, pr.2.success = true) :
    failedFiles results = [] := by
  unfold failedFiles
  rw [List.filter_eq_nil_iff.mpr fun pr hpr => by simp [h pr hpr]]
  rfl

theorem correctionRound_all_success (fs : FS) (ct : Fpath → Nat)
    (results : List (Fpath × CompilationResult))
    (h : ∀ pr ∈ results, pr.2.success = false) :
    ∀ pr ∈ correctionRound fs ct results, pr.2.success = true := by
  unfold correctionRound
  refine foldl_insert_all_success fs ct _ results fun pr hpr => Or.inr ?_
  rw [failedFiles_of_all_fail results h]
  exact List.mem_map_of_mem Prod.fst hpr

theorem find?_map_of_nodup (f : Fpath → QuantumState)
    (hf : ∀ p, (f p).file_path = p) :
    ∀ (paths : List Fpath), paths.Nodup → ∀ p ∈ paths,
      (paths.map f).find? (fun s => s.file_path == p) = some (f p) := by
  intro paths
  induction paths with
  | nil => intro _ p hp; cases hp
  | cons q rest ih =>
    intro hnd p hp
    rw [List.map_cons]
    by_cases hq : q = p
    · subst hq
      rw [List.find?_cons_of_pos _ (by simp [hf])]
    · rw [List.find?_cons_of_neg _ (by simp [hf, hq])]
      exact ih (List.Nodup.of_cons hnd) p
        ((List.mem_cons.mp hp).resolve_left fun h => hq h.symm)

theorem entangle_initialize_eq_map (fs : FS) (cfg : QuantumConfig)
    (paths : List Fpath) (hnd : paths.Nodup) :
    entangle_dependencies fs (initialize_quantum_superposition fs cfg paths) =
      paths.map (fun p => entangleOne fs paths (initState fs cfg p)) := by
  unfold entangle_dependencies
  rw [initialize_file_paths, List.dedup_eq_self.mpr hnd]
  unfold initialize_quantum_superposition
  rw [List.map_map]
  rfl

theorem findUnit_entangle (fs : FS) (cfg : QuantumConfig) (paths : List Fpath)
    (hnd : paths.Nodup) (p : Fpath) (hp : p ∈ paths) :
    findUnit (entangle_dependencies fs (initialize_quantum_superposition fs cfg paths)) p =
      some (entangleOne fs paths (initState fs cfg p)) := by
  unfold findUnit
  rw [entangle_initialize_eq_map fs cfg paths hnd]
  exact find?_map_of_nodup _ (fun q => entangleOne_file_path fs paths (initState fs cfg q))
    paths hnd p hp

theorem initState_file_path (fs : FS) (cfg : QuantumConfig) (p : Fpath) :
    (initState fs cfg p).file_path = p := rfl

theorem entangleOne_initState_of_error (fs : FS) (cfg : QuantumConfig)
    (ks : List Fpath) (p : Fpath) (e : String)
    (h : resolve_dependencies fs p = Except.error e) :
    entangleOne fs ks (initState fs cfg p) = initState fs cfg p := by
  unfold entangleOne
  simp only [initState_file_path, h]

theorem entangleOne_initState_of_ok (fs : FS) (cfg : QuantumConfig)
    (ks : List Fpath) (p : Fpath) (deps : List Fpath)
    (h : resolve_dependencies fs p = Except.ok deps) :
    (entangleOne fs ks (initState fs cfg p)).dependencies = deps ∧
    (entangleOne fs ks (initState fs cfg p)).entangled_files =
      ks.filter (fun other_path =>
        other_path != p &&
          (match resolve_dependencies fs other_path with
           | Except.ok other_deps => other_deps.contains p
           | Except.error _ => false)) := by
  unfold entangleOne
  simp only [initState_file_path, h]
  exact ⟨trivial, rfl⟩

/-
Claim theorems.
-/

/-- C1: for every non-empty list of distinct input paths, the key list of the
results map equals the input path list — one entry per input path, none lost
or duplicated — both after Phase 3 (`quantum_measurement`) and after Phase 4
(`quantum_error_correction`, which only replaces values at existing keys),
for every file system, configuration and measured timing. -/
theorem C1_result_map_keys (fs : FS) (cfg : QuantumConfig) (time : Fpath → Nat)
    (ctime : Nat → Fpath → Nat) (paths : List Fpath) (hne : paths ≠ [])
    (hnd : paths.Nodup) :
    (quantum_measurement fs time (batchStates fs cfg paths)).map Prod.fst = paths ∧
    ((quantum_error_correction fs ctime cfg.error_correction_level
        (quantum_measurement fs time (batchStates fs cfg paths))).1).map Prod.fst = paths := by
  have h3 : (quantum_measurement fs time (batchStates fs cfg paths)).map Prod.fst = paths := by
    rw [quantum_measurement_keys, batchStates_file_paths]
  exact ⟨h3, by rw [quantum_error_correction_keys, h3]⟩

/-- Witness for C1 at a concrete two-file batch on `exFS0`. -/
theorem C1_result_map_keys_witness :
    (quantum_measurement exFS0 timeW (batchStates exFS0 exCfg ["a.ts", "b.ts"])).map
        Prod.fst = ["a.ts", "b.ts"] ∧
    ((quantum_error_correction exFS0 ctW exCfg.error_correction_level
        (quantum_measurement exFS0 timeW (batchStates exFS0 exCfg ["a.ts", "b.ts"]))).1).map
        Prod.fst = ["a.ts", "b.ts"] :=
  C1_result_map_keys exFS0 exCfg timeW ctW ["a.ts", "b.ts"] (by decide) (by decide)

/-- C2 counterexample: on the batch `[a.ts, b.ts]` where `a.ts` is unreadable
and `b.ts` imports `a.ts`, Phase 2 leaves `a.ts`'s `entangled_files` empty
even though `a.ts` is in `b.ts`'s `dependencies` — the claimed symmetry fails
when some file in the batch is unreadable, because the whole dependent-search
is guarded by the unit's own `resolve_dependencies` succeeding. -/
theorem C2_edge_symmetry_counterexample :
    ¬ (∀ A ∈ entX, ∀ B ∈ entX,
        (B.file_path ∈ A.entangled_files ↔ A.file_path ∈ B.dependencies)) := by
  decide

/-- C2 amended: the edge symmetry holds for every pair of distinct units
(A, B) of a distinct-path batch PROVIDED A's own file is readable: B is in
A's `entangled_files` exactly when A's path is in B's `dependencies`. -/
theorem C2_edge_symmetry_amended (fs : FS) (cfg : QuantumConfig) (paths : List Fpath)
    (hnd : paths.Nodup) (pa pb : Fpath) (ha : pa ∈ paths) (hb : pb ∈ paths)
    (hne : pb ≠ pa) (hread : (fs.read pa).isSome = true) (A B : QuantumState)
    (hA : findUnit (entangle_dependencies fs
        (initialize_quantum_superposition fs cfg paths)) pa = some A)
    (hB : findUnit (entangle_dependencies fs
        (initialize_quantum_superposition fs cfg paths)) pb = some B) :
    pb ∈ A.entangled_files ↔ pa ∈ B.dependencies := by
  rw [findUnit_entangle fs cfg paths hnd pa ha] at hA
  rw [findUnit_entangle fs cfg paths hnd pb hb] at hB
  obtain rfl : A = entangleOne fs paths (initState fs cfg pa) := (Option.some.inj hA).symm
  obtain rfl : B = entangleOne fs paths (initState fs cfg pb) := (Option.some.inj hB).symm
  obtain ⟨ca, hca⟩ := Option.isSome_iff_exists.mp hread
  have hresa : resolve_dependencies fs pa =
      Except.ok ((splitOnNewline ca.toList).filterMap
        (fun line => if isImportLine line then extract_import_path line else none)) := by
    unfold resolve_dependencies
    rw [hca]
  have hAent := (entangleOne_initState_of_ok fs cfg paths pa _ hresa).2
  rw [hAent]
  cases hresb : resolve_dependencies fs pb with
  | error e =>
    rw [entangleOne_initState_of_error fs cfg paths pb e hresb]
    constructor
    · intro hmem
      have hcond : (pb != pa &&
          (match resolve_dependencies fs pb with
           | Except.ok other_deps => other_deps.contains pa
           | Except.error _ => false)) = true := (List.mem_filter.mp hmem).2
      simp only [hresb, Bool.and_eq_true] at hcond
      exact absurd hcond.2 (by simp)
    · intro hmem
      rw [show (initState fs cfg pb).dependencies = [] from rfl] at hmem
      cases hmem
  | ok depsB =>
    rw [(entangleOne_initState_of_ok fs cfg paths pb depsB hresb).1]
    rw [List.mem_filter]
    constructor
    · intro hc
      have hcond : (pb != pa &&
          (match resolve_dependencies fs pb with
           | Except.ok other_deps => other_deps.contains pa
           | Except.error _ => false)) = true := hc.2
      simp only [hresb, Bool.and_eq_true] at hcond
      exact List.elem_iff.mp hcond.2
    · intro hmem
      refine ⟨hb, ?_⟩
      show (pb != pa &&
          (match resolve_dependencies fs pb with
           | Except.ok other_deps => other_deps.contains pa
           | Except.error _ => false)) = true
      simp only [hresb, Bool.and_eq_true, bne_iff_ne]
      exact ⟨hne, List.elem_iff.mpr hmem⟩

/-- Witness for the amended C2 on a batch where both files are readable and
`b.ts` imports `a.ts`. -/
theorem C2_edge_symmetry_amended_witness :
    "b.ts" ∈ unitAW.entangled_files ↔ "a.ts" ∈ unitBW.dependencies :=
  C2_edge_symmetry_amended exFSW exCfg ["a.ts", "b.ts"] (by decide) "a.ts" "b.ts"
    (by decide) (by decide) (by decide) (by decide) unitAW unitBW (by decide) (by decide)

/-- C3: when the compile step fails for a unit's path (the compile function
returns an error, e.g. the file cannot be read), Phase 3 records for that
path a result with `success = false` and `errors` equal to the one-element
list holding the error message; the entry is data in the returned results map
and the phase still yields one entry per unit (nothing is propagated, the
batch is not aborted). -/
theorem C3_per_file_failure_captured (fs : FS) (time : Fpath → Nat)
    (states : List QuantumState) (s : QuantumState) (e : String) (hs : s ∈ states)
    (he : quantum_compile_file fs s.file_path = Except.error e) :
    (measureOne fs time s).success = false ∧
    (measureOne fs time s).errors = [e] ∧
    (s.file_path, measureOne fs time s) ∈ quantum_measurement fs time states ∧
    (quantum_measurement fs time states).length = states.length := by
  refine ⟨?_, ?_, ?_, ?_⟩
  · simp [measureOne, he]
  · simp [measureOne, he]
  · exact List.mem_map.mpr ⟨s, hs, rfl⟩
  · simp [quantum_measurement]

/-- Witness for C3: on the all-unreadable `exFS4`, the one-file batch records
the read error as a failing result. -/
theorem C3_per_file_failure_captured_witness :
    (measureOne exFS4 timeW (initState exFS4 exCfg "a.ts")).success = false ∧
    (measureOne exFS4 timeW (initState exFS4 exCfg "a.ts")).errors = ["os error 2: a.ts"] ∧
    ((initState exFS4 exCfg "a.ts").file_path,
        measureOne exFS4 timeW (initState exFS4 exCfg "a.ts")) ∈
      quantum_measurement exFS4 timeW
        (initialize_quantum_superposition exFS4 exCfg ["a.ts"]) ∧
    (quantum_measurement exFS4 timeW
        (initialize_quantum_superposition exFS4 exCfg ["a.ts"])).length =
      (initialize_quantum_superposition exFS4 exCfg ["a.ts"]).length :=
  C3_per_file_failure_captured exFS4 timeW
    (initialize_quantum_superposition exFS4 exCfg ["a.ts"])
    (initState exFS4 exCfg "a.ts") "os error 2: a.ts" (by decide) (by rfl)

theorem qecGo_step_busy (fs : FS) (ctime : Nat → Fpath → Nat) (n rounds : Nat)
    (results : List (Fpath × CompilationResult)) (retry : Fpath → Nat)
    (h : (failedFiles results).isEmpty = false) :
    qecGo fs ctime (n + 1) rounds results retry =
      qecGo fs ctime n (rounds + 1) (correctionRound fs (ctime rounds) results)
        (fun p => if p ∈ failedFiles results then retry p + 1 else retry p) := by
  simp only [qecGo]
  rw [if_neg (by simp [h])]

theorem qecGo_step_done (fs : FS) (ctime : Nat → Fpath → Nat) (n rounds : Nat)
    (results : List (Fpath × CompilationResult)) (retry : Fpath → Nat)
    (h : (failedFiles results).isEmpty = true) :
    qecGo fs ctime (n + 1) rounds results retry = (results, rounds, retry) := by
  simp only [qecGo]
  rw [if_pos h]

/-- C4 counterexample: at correction level 2 (so `max_correction_rounds = 4`),
on a one-file batch whose compile attempt fails (unreadable file), Phase 3
indeed produces an all-failing map, but the Error-Correction Loop then runs
exactly ONE round after which the result is SUCCESSFUL (the mechanical
rewrite's output always carries a non-empty header, so
`correct_compilation_errors` never fails), with one retry — contradicting
"all results remain failing and retry_count equals max_correction_rounds". -/
theorem C4_all_fail_counterexample :
    ((quantum_measurement exFS4 (fun _ => 5)
        (initialize_quantum_superposition exFS4 exCfg ["a.ts"])).map
        (fun pr => pr.2.success) = [false]) ∧
    qecX.1.map (fun pr => (pr.1, pr.2.success)) = [("a.ts", true)] ∧
    qecX.2.1 = 1 ∧ qecX.2.2 "a.ts" = 1 := by
  decide

/-- C4 amended: if every Phase 3 result is failing and the batch is non-empty,
then for any `error_correction_level ≥ 1` the Error-Correction Loop performs
exactly one round, after which EVERY result is successful, and every unit's
correction-attempt count is 1 (not `max_correction_rounds`). -/
theorem C4_all_fail_amended (fs : FS) (ctime : Nat → Fpath → Nat)
    (error_correction_level : Nat) (results : List (Fpath × CompilationResult))
    (hlev : 1 ≤ error_correction_level) (hne : results ≠ [])
    (hfail : ∀ pr ∈ results, pr.2.success = false) :
    (∀ pr ∈ (quantum_error_correction fs ctime error_correction_level results).1,
        pr.2.success = true) ∧
    (quantum_error_correction fs ctime error_correction_level results).2.1 = 1 ∧
    ∀ p ∈ results.map Prod.fst,
      (quantum_error_correction fs ctime error_correction_level results).2.2 p = 1 := by
  obtain ⟨m, hm⟩ : ∃ m, error_correction_level * 2 = m + 1 + 1 :=
    ⟨error_correction_level * 2 - 2, by omega⟩
  have hffal : failedFiles results = results.map Prod.fst :=
    failedFiles_of_all_fail results hfail
  have hnonempty : (failedFiles results).isEmpty = false := by
    rw [hffal]
    cases results with
    | nil => exact absurd rfl hne
    | cons a l => rfl
  have hsucc1 : ∀ pr ∈ correctionRound fs (ctime 0) results, pr.2.success = true :=
    correctionRound_all_success fs (ctime 0) results hfail
  have hempty2 : (failedFiles (correctionRound fs (ctime 0) results)).isEmpty = true := by
    rw [failedFiles_of_all_success _ hsucc1]
    rfl
  have key : quantum_error_correction fs ctime error_correction_level results =
      (correctionRound fs (ctime 0) results, 1,
        fun p => if p ∈ failedFiles results then 0 + 1 else 0) := by
    unfold quantum_error_correction
    rw [hm, qecGo_step_busy fs ctime (m + 1) 0 results (fun _ => 0) hnonempty,
      qecGo_step_done fs ctime m 1 _ _ hempty2]
  rw [key]
  refine ⟨hsucc1, rfl, fun p hp => ?_⟩
  show (if p ∈ failedFiles results then 0 + 1 else 0) = 1
  rw [if_pos (hffal ▸ hp)]

/-- Witness for the amended C4 on a concrete one-entry failing map. -/
theorem C4_all_fail_amended_witness :
    (∀ pr ∈ (quantum_error_correction exFS4 ctW 2 resW).1, pr.2.success = true) ∧
    (quantum_error_correction exFS4 ctW 2 resW).2.1 = 1 ∧
    ∀ p ∈ resW.map Prod.fst, (quantum_error_correction exFS4 ctW 2 resW).2.2 p = 1 :=
  C4_all_fail_amended exFS4 ctW 2 resW (by decide) (by decide) (by decide)

/-- C5: for every file path in a distinct-path batch whose file cannot be
read, Phase 2 leaves that unit's dependency list empty (the `Err` from
`resolve_dependencies` is swallowed by the `if let Ok`) and the phase still
completes with one unit per input — the batch continues. -/
theorem C5_resolver_soft_fail (fs : FS) (cfg : QuantumConfig) (paths : List Fpath)
    (hnd : paths.Nodup) (p : Fpath) (hp : p ∈ paths) (hun : fs.read p = none)
    (A : QuantumState)
    (hA : findUnit (entangle_dependencies fs
        (initialize_quantum_superposition fs cfg paths)) p = some A) :
    A.dependencies = [] ∧
    (entangle_dependencies fs (initialize_quantum_superposition fs cfg paths)).length =
      paths.length := by
  have hres : resolve_dependencies fs p = Except.error (fs.errMsg p) := by
    unfold resolve_dependencies
    rw [hun]
  rw [findUnit_entangle fs cfg paths hnd p hp] at hA
  obtain rfl : A = entangleOne fs paths (initState fs cfg p) := (Option.some.inj hA).symm
  constructor
  · rw [entangleOne_initState_of_error fs cfg paths p _ hres]
    rfl
  · unfold entangle_dependencies initialize_quantum_superposition
    simp

/-- Witness for C5: the unreadable `a.ts` of `exFS2` ends Phase 2 with an
empty dependency list while the two-file batch completes. -/
theorem C5_resolver_soft_fail_witness :
    unitAX.dependencies = [] ∧
    (entangle_dependencies exFS2
        (initialize_quantum_superposition exFS2 exCfg ["a.ts", "b.ts"])).length =
      (["a.ts", "b.ts"] : List Fpath).length :=
  C5_resolver_soft_fail exFS2 exCfg ["a.ts", "b.ts"] (by decide) "a.ts" (by decide)
    (by decide) unitAX (by decide)

/-- C6: if every result entering Phase 4 is successful, the Error-Correction
Loop performs zero rounds, returns the results map unchanged, and every
unit's correction-attempt count is 0 — for every level and timing. -/
theorem C6_no_failures_zero_rounds (fs : FS) (ctime : Nat → Fpath → Nat)
    (error_correction_level : Nat) (results : List (Fpath × CompilationResult))
    (hsucc : ∀ pr ∈ results, pr.2.success = true) :
    (quantum_error_correction fs ctime error_correction_level results).1 = results ∧
    (quantum_error_correction fs ctime error_correction_level results).2.1 = 0 ∧
    ∀ p, (quantum_error_correction fs ctime error_correction_level results).2.2 p = 0 := by
  have hkey : quantum_error_correction fs ctime error_correction_level results =
      (results, 0, fun _ => 0) := by
    unfold quantum_error_correction
    cases h2 : error_correction_level * 2 with
    | zero => rfl
    | succ n =>
      exact qecGo_step_done fs ctime n 0 results (fun _ => 0)
        (by rw [failedFiles_of_all_success results hsucc]; rfl)
  rw [hkey]
  exact ⟨rfl, rfl, fun p => rfl⟩

/-- Witness for C6 on a concrete all-successful Phase 3 output. -/
theorem C6_no_failures_zero_rounds_witness :
    (quantum_error_correction exFS0 ctW 2 measX).1 = measX ∧
    (quantum_error_correction exFS0 ctW 2 measX).2.1 = 0 ∧
    ∀ p, (quantum_error_correction exFS0 ctW 2 measX).2.2 p = 0 :=
  C6_no_failures_zero_rounds exFS0 ctW 2 measX (by decide)

theorem calc_efficiency_isSome (results : List (Fpath × CompilationResult))
    (total_time : Nat) (h : results.length ≠ 0) :
    ∃ q, calculate_quantum_efficiency results total_time = some q := by
  unfold calculate_quantum_efficiency
  rw [if_neg h]
  exact ⟨_, rfl⟩

/-- C7 counterexample: with `max_parallel_threads = 0` and a non-empty batch,
`compile_quantum_parallel` does NOT return an immediate error — it runs all
phases and returns a full result map. There is no configuration validation
anywhere: `QuantumCompiler::new` just builds a zero-permit semaphore that is
never acquired. -/
theorem C7_zero_parallel_counterexample :
    (compile_quantum_parallel exFS0 cfgZero timeW ctW 9 ["a.ts"]).isSome = true := by
  decide

/-- C7 amended: a configuration with `max_parallel_threads = 0` is accepted;
for every non-empty batch the pipeline runs to completion and returns a
result map keyed exactly by the input paths (no error, no rejection). -/
theorem C7_zero_parallel_amended (fs : FS) (cfg : QuantumConfig) (time : Fpath → Nat)
    (ctime : Nat → Fpath → Nat) (total_time : Nat) (file_paths : List Fpath)
    (hzero : cfg.max_parallel_threads = 0) (hne : file_paths ≠ []) :
    Option.map (List.map Prod.fst)
      (compile_quantum_parallel fs cfg time ctime total_time file_paths) =
      some file_paths := by
  have hk : ((quantum_error_correction fs ctime cfg.error_correction_level
      (quantum_measurement fs time (batchStates fs cfg file_paths))).1).map Prod.fst =
      file_paths := by
    rw [quantum_error_correction_keys, quantum_measurement_keys, batchStates_file_paths]
  have hlen : ((quantum_error_correction fs ctime cfg.error_correction_level
      (quantum_measurement fs time (batchStates fs cfg file_paths))).1).length ≠ 0 := by
    have hl := congrArg List.length hk
    rw [List.length_map] at hl
    rw [hl]
    exact fun h0 => hne (List.length_eq_zero.mp h0)
  obtain ⟨q, hq⟩ := calc_efficiency_isSome _ total_time hlen
  simp only [compile_quantum_parallel, hq]
  simp [hk]

/-- Witness for the amended C7 on a concrete two-file batch. -/
theorem C7_zero_parallel_amended_witness :
    Option.map (List.map Prod.fst)
      (compile_quantum_parallel exFS0 cfgZero timeW ctW 9 ["a.ts", "b.ts"]) =
      some ["a.ts", "b.ts"] :=
  C7_zero_parallel_amended exFS0 cfgZero timeW ctW 9 ["a.ts", "b.ts"] (by rfl) (by decide)

/-- C8 counterexample: the event trace of Phase 3 for a one-file batch
contains the compile attempt but no semaphore-slot acquisition — the
`compilation_semaphore` is initialized in `QuantumCompiler::new` and never
acquired, so a compile attempt runs WITHOUT acquiring a slot, contradicting
the claimed acquire-before-compile discipline. -/
theorem C8_limiter_counterexample :
    ExecEvent.compileAttempt "a.ts" ∈ traceX ∧ ExecEvent.acquireSlot ∉ traceX := by
  decide

/-- C8 amended: Phase 3 performs exactly one compile attempt per unit (one
per entry of the results map) and NO semaphore acquisition or release at all;
the Concurrency Limiter is never used, so nothing bounds simultaneous compile
executions to `max_parallel_threads`. -/
theorem C8_limiter_amended (fs : FS) (time : Fpath → Nat) (states : List QuantumState) :
    quantum_measurement_trace states =
      (quantum_measurement fs time states).map (fun pr => ExecEvent.compileAttempt pr.1) ∧
    ExecEvent.acquireSlot ∉ quantum_measurement_trace states ∧
    ExecEvent.releaseSlot ∉ quantum_measurement_trace states := by
  refine ⟨?_, ?_, ?_⟩
  · simp [quantum_measurement_trace, quantum_measurement]
  · simp [quantum_measurement_trace]
  · simp [quantum_measurement_trace]

/-- C9 counterexample: on a readable file with complexity weight 1, a compile
attempt measured at 25ms (half the expected 50ms) records
`quantum_efficiency = 2`, whereas the spec's capped score
`min(expected/actual, 1) * weight` equals 1 — the code does NOT cap the ratio
at 1.0. -/
theorem C9_efficiency_counterexample :
    measX.map (fun pr => (pr.2.success, pr.2.quantum_efficiency)) = [(true, 2)] ∧
    spec_efficiency_score 50000000 25000000 sW.superposition_level = 1 ∧
    (2 : ℚ) ≠ 1 := by
  refine ⟨?_, ?_, by norm_num⟩
  · simp [measX, quantum_measurement, initialize_quantum_superposition, initState,
      measureOne, quantum_compile_file, exFS0, exCfg, calculate_file_efficiency]
    norm_num
  · simp only [spec_efficiency_score, sW, initState, exCfg, Bool.false_eq_true, if_false]
    norm_num [min_def]

/-- C9 amended: for every unit whose compile attempt takes positive measured
time, the efficiency score recorded in its Phase 3 result equals
`expected_time / actual_time` (UNCAPPED) multiplied by the unit's
`superposition_level`, with `expected_time` = 50ms. -/
theorem C9_efficiency_amended (fs : FS) (time : Fpath → Nat)
    (states : List QuantumState) (s : QuantumState) (hs : s ∈ states)
    (ht : 0 < time s.file_path) :
    (s.file_path, measureOne fs time s) ∈ quantum_measurement fs time states ∧
    (measureOne fs time s).quantum_efficiency =
      (50000000 : ℚ) / ((time s.file_path : Nat) : ℚ) * s.superposition_level := by
  constructor
  · exact List.mem_map.mpr ⟨s, hs, rfl⟩
  · simp [measureOne, calculate_file_efficiency, ht]

/-- Witness for the amended C9 at the 25ms measurement on `exFS0`. -/
theorem C9_efficiency_amended_witness :
    (sW.file_path, measureOne exFS0 timeW sW) ∈
      quantum_measurement exFS0 timeW
        (initialize_quantum_superposition exFS0 exCfg ["a.ts"]) ∧
    (measureOne exFS0 timeW sW).quantum_efficiency =
      (50000000 : ℚ) / ((timeW sW.file_path : Nat) : ℚ) * sW.superposition_level :=
  C9_efficiency_amended exFS0 timeW (initialize_quantum_superposition exFS0 exCfg ["a.ts"])
    sW (by decide) (by decide)

/-- C10: for the empty input path list, `compile_quantum_parallel` does not
return a result map at all: `calculate_quantum_efficiency` divides the summed
compilation time by the number of results — zero — and the `Duration`
division panics (modelled as `none`), for every file system, configuration
and timing. -/
theorem C10_empty_batch_panics (fs : FS) (cfg : QuantumConfig) (time : Fpath → Nat)
    (ctime : Nat → Fpath → Nat) (total_time : Nat) :
    compile_quantum_parallel fs cfg time ctime total_time [] = none := by
  have hbatch : batchStates fs cfg [] = [] := by
    unfold batchStates initialize_quantum_superposition entangle_dependencies
    simp
  have hqec : (quantum_error_correction fs ctime cfg.error_correction_level
      (quantum_measurement fs time (batchStates fs cfg []))).1 = [] := by
    rw [hbatch]
    show (qecGo fs ctime (cfg.error_correction_level * 2) 0 [] (fun _ => 0)).1 = []
    cases cfg.error_correction_level * 2 with
    | zero => rfl
    | succ n => rfl
  simp only [compile_quantum_parallel, hqec, calculate_quantum_efficiency]
  rfl

end Synapse
